import Mathlib

/-!
Portfolio behaviour layer (`src/script.js`)

A shallow embedding of the DOM event handlers of `script.js`: theme toggle,
mobile navigation toggle, throttled scroll reveal, section entrance, typed
tagline and the contact form.

JavaScript strings are sequences of UTF-16 code units; they are modelled as
lists of natural numbers (`JSString`).  DOM state that a handler reads or
writes is an explicit record, and a handler is a function on that record.
-/

namespace Portfolio

/-! ## Strings -/

/-- A JavaScript string: its UTF-16 code units, in order. -/
abbrev JSString := List Nat

/-- UTF-16 code units of one code point. -/
def utf16EncodeCodePoint (cp : Nat) : List Nat :=
  if cp < 0x10000 then [cp]
  else [0xD800 + (cp - 0x10000) / 0x400, 0xDC00 + (cp - 0x10000) % 0x400]

/-- The JavaScript string holding the given Unicode characters. -/
def utf16 : List Char → JSString
  | [] => []
  | c :: cs => utf16EncodeCodePoint c.toNat ++ utf16 cs

/-- A string literal of the source. -/
def lit (s : String) : JSString := utf16 s.toList

/-! ## Theme toggle (`script.js` lines 9-36) -/

/-- The part of the page the theme code reads and writes. -/
structure ThemeEnv where
  /-- Value of `localStorage.getItem('portfolio-theme')`, `none` for `null`. -/
  stored : Option JSString
  /-- Result of `matchMedia('(prefers-color-scheme: light)').matches`. -/
  systemLight : Bool
  /-- The `data-theme` attribute of the document element, `none` when absent. -/
  dataTheme : Option JSString
  deriving DecidableEq

/-- The stored value is returned when it is truthy: neither `null` nor the empty
string; nothing checks that it is `light` or `dark`. -/
def getPreferredTheme (env : ThemeEnv) : JSString :=
  match env.stored with
  | some (c :: cs) => c :: cs
  | _ => if env.systemLight then lit "light" else lit "dark"

def setTheme (theme : JSString) (env : ThemeEnv) : ThemeEnv :=
  { env with dataTheme := some theme, stored := some theme }

def initTheme (env : ThemeEnv) : ThemeEnv :=
  setTheme (getPreferredTheme env) env

/-- The click listener of `.theme-toggle`. -/
def themeToggleClick (env : ThemeEnv) : ThemeEnv :=
  let next := if env.dataTheme = some (lit "dark") then lit "light" else lit "dark"
  setTheme next env

/-! ## Mobile navigation toggle (`script.js` lines 38-56) -/

/-- Ordered token set of an element's `classList`. -/
abbrev ClassList := List JSString

def ClassList.add (c : JSString) (l : ClassList) : ClassList :=
  if c ∈ l then l else l ++ [c]

def ClassList.remove (c : JSString) (l : ClassList) : ClassList :=
  l.filter (fun x => x ≠ c)

def ClassList.toggle (c : JSString) (l : ClassList) : ClassList :=
  if c ∈ l then ClassList.remove c l else l ++ [c]

/-- Attributes of `.nav-toggle` and the class list of `.nav-links`. -/
structure NavState where
  ariaExpanded : Option JSString
  ariaLabel : Option JSString
  panelClasses : ClassList
  deriving DecidableEq

/-- The click listener of `.nav-toggle`. -/
def navToggleClick (s : NavState) : NavState :=
  let expanded : Bool := decide (s.ariaExpanded = some (lit "true"))
  { ariaExpanded := some (if !expanded then lit "true" else lit "false")
    ariaLabel := some (if expanded then lit "Open menu" else lit "Close menu")
    panelClasses := ClassList.toggle (lit "open") s.panelClasses }

/-- The click listener of every `a` inside `.nav-links`. -/
def navLinkClick (s : NavState) : NavState :=
  { s with
    ariaExpanded := some (lit "false")
    panelClasses := ClassList.remove (lit "open") s.panelClasses }

/-- A click on the navigation. -/
inductive NavClick where
  | toggle
  | link
  deriving DecidableEq

def navClick (s : NavState) : NavClick → NavState
  | .toggle => navToggleClick s
  | .link => navLinkClick s

/-- The collapsed navigation. -/
def navCollapsed : NavState :=
  { ariaExpanded := some (lit "false"), ariaLabel := some (lit "Open menu"), panelClasses := [] }

/-! ## Scroll reveal throttling (`script.js` lines 74-87) -/

/-- The closure variable `last` of one function returned by `throttle`. -/
structure Throttle where
  last : Int
  deriving DecidableEq

/-- The closure created by a call `throttle(fn, delay)`: `let last = 0`. -/
def throttle : Throttle := { last := 0 }

/-- One call of the function returned by `throttle(fn, delay)` while
`Date.now()` is `now`: the closure afterwards, and whether `fn` was called. -/
def Throttle.call (delay : Int) (t : Throttle) (now : Int) : Throttle × Bool :=
  if now - t.last ≥ delay then ({ last := now }, true) else (t, false)

/-- The two window events that have a reveal listener. -/
inductive WindowEvent where
  | scroll
  | resize
  deriving DecidableEq

/-- The listeners registered on lines 85 and 86: each `throttle(revealOnScroll, 100)`
is a call of its own. -/
structure RevealListeners where
  onScroll : Throttle
  onResize : Throttle
  deriving DecidableEq

def revealListeners : RevealListeners := { onScroll := throttle, onResize := throttle }

/-- Dispatch of one event at time `ev.2`: the listeners afterwards, and whether
`revealOnScroll` ran. -/
def RevealListeners.dispatch (l : RevealListeners) (ev : WindowEvent × Int) :
    RevealListeners × Bool :=
  match ev.1 with
  | .scroll => ({ l with onScroll := (l.onScroll.call 100 ev.2).1 }, (l.onScroll.call 100 ev.2).2)
  | .resize => ({ l with onResize := (l.onResize.call 100 ev.2).1 }, (l.onResize.call 100 ev.2).2)

/-- The listeners after a sequence of events. -/
def RevealListeners.after (l : RevealListeners) : List (WindowEvent × Int) → RevealListeners
  | [] => l
  | ev :: evs => RevealListeners.after (l.dispatch ev).1 evs

/-- Whether the event `ev`, arriving after the events `pre` since page load,
runs `revealOnScroll`. -/
def revealRuns (pre : List (WindowEvent × Int)) (ev : WindowEvent × Int) : Bool :=
  ((revealListeners.after pre).dispatch ev).2

/-- The `last` variable of the listener for events of kind `k`. -/
def RevealListeners.last (l : RevealListeners) : WindowEvent → Int
  | .scroll => l.onScroll.last
  | .resize => l.onResize.last

/-! ## Section entrance (`script.js` lines 89-121) -/

/-- A `main .section` element: its id, class list and `--section-delay`. -/
structure Section where
  id : JSString
  classList : ClassList
  sectionDelay : Option JSString
  deriving DecidableEq

/-- The value `Math.min(index * 45, 180) + 'ms'`. -/
def sectionDelayValue (index : Nat) : JSString :=
  lit (toString (min (index * 45) 180) ++ "ms")

/-- The section entrance block, run once at load: the sections afterwards and
the indices of the sections passed to `sectionObserver.observe`. -/
def initSections (prefersReducedMotion hasIntersectionObserver : Bool)
    (sectionNodes : List Section) : List Section × List Nat :=
  if !prefersReducedMotion && sectionNodes.length != 0 then
    if hasIntersectionObserver then
      (sectionNodes.enum.map fun p =>
          if p.2.id = lit "hero" then p.2
          else { p.2 with
                 classList := ClassList.add (lit "section-entrance") p.2.classList
                 sectionDelay := some (sectionDelayValue p.1) },
        (sectionNodes.enum.filter fun p => p.2.id ≠ lit "hero").map Prod.fst)
    else
      (sectionNodes.map fun sec =>
          if sec.id = lit "hero" then sec
          else { sec with classList := ClassList.add (lit "section-visible") sec.classList },
        [])
  else (sectionNodes, [])

/-! ## Typed tagline (`script.js` lines 123-168) -/

/-- The variables `index`, `charIndex` and `isDeleting`. -/
structure TypedState where
  index : Nat
  charIndex : Nat
  isDeleting : Bool
  deriving DecidableEq

/-- What one call of `type()` does to the page: the value assigned to
`typedEl.textContent` (`none` when nothing is assigned) and the delay of the
`setTimeout(type, delay)` it issues. -/
structure Tick where
  text : Option JSString
  delay : Nat
  deriving DecidableEq

/-- The call `s.substring(0, n)` for `n ≥ 0`. -/
def substring0 (s : JSString) (n : Nat) : JSString := s.take n

/-- One call of `type()`.  `none`: `dataStrings[index]` is `undefined` and
`current.substring` throws.  The loop is only started when `dataStrings.length`
is not zero. -/
def typeStep (dataStrings : List JSString) (s : TypedState) : Option (TypedState × Tick) :=
  if s.isDeleting then
    if s.charIndex = 0 then
      some ({ s with isDeleting := false, index := (s.index + 1) % dataStrings.length },
        { text := none, delay := 800 })
    else
      match dataStrings[s.index]? with
      | none => none
      | some current =>
        some ({ s with charIndex := s.charIndex - 1 },
          { text := some (substring0 current (s.charIndex - 1)), delay := 50 })
  else
    match dataStrings[s.index]? with
    | none => none
    | some current =>
      if s.charIndex + 1 = current.length then
        some ({ s with charIndex := s.charIndex + 1, isDeleting := true },
          { text := some (substring0 current (s.charIndex + 1)), delay := 2000 })
      else
        some ({ s with charIndex := s.charIndex + 1 },
          { text := some (substring0 current (s.charIndex + 1)), delay := 80 })

/-- The first `n` calls of `type()` from state `s`: what each did, and the
state afterwards. -/
def typeRun (dataStrings : List JSString) : Nat → TypedState → Option (List Tick × TypedState)
  | 0, s => some ([], s)
  | n + 1, s =>
    match typeStep dataStrings s with
    | none => none
    | some (s1, t) =>
      match typeRun dataStrings n s1 with
      | none => none
      | some (ts, s2) => some (t :: ts, s2)

/-- The state in which `setTimeout(type, 500)` starts the loop. -/
def typedStart : TypedState := { index := 0, charIndex := 0, isDeleting := false }

/-- The calls of `type()` that type the string `s`: the prefixes of lengths
`1, ..., s.length`, the next call 80 ms later, and 2000 ms later once the whole
string is displayed. -/
def typingTicks (s : JSString) : List Tick :=
  (List.range s.length).map fun k =>
    { text := some (s.take (k + 1)), delay := if k + 1 = s.length then 2000 else 80 }

/-- The calls of `type()` that delete the string `s`: the prefixes of lengths
`s.length - 1, ..., 0`, the next call 50 ms later. -/
def deletingTicks (s : JSString) : List Tick :=
  (List.range s.length).map fun k =>
    { text := some (s.take (s.length - 1 - k)), delay := 50 }

/-- The call of `type()` that moves on to the next string: nothing is
displayed, the next call is 800 ms later. -/
def switchTick : Tick := { text := none, delay := 800 }

/-- The values assigned to `typedEl.textContent` by the first `n` calls of
`type()` after the start of the loop. -/
def typedTexts (dataStrings : List JSString) (n : Nat) : Option (List JSString) :=
  (typeRun dataStrings n typedStart).map fun r => r.1.filterMap Tick.text

/-! ## `JSON.parse` and the `data-strings` attribute (`script.js` lines 126-131) -/

/-- A value produced by `JSON.parse`.  A number carries its lexeme (its double
value is not modelled); an object carries its members in order of first
appearance, a repeated key keeping its last value. -/
inductive JSValue where
  | null
  | bool (b : Bool)
  | number (lexeme : JSString)
  | string (s : JSString)
  | array (items : List JSValue)
  | object (members : List (JSString × JSValue))

/-- JSON white space: space, tab, line feed, carriage return. -/
def isJsonWhitespace (c : Nat) : Bool :=
  c == 0x20 || c == 0x09 || c == 0x0A || c == 0x0D

def skipWhitespace : JSString → JSString
  | [] => []
  | c :: cs => if isJsonWhitespace c then skipWhitespace cs else c :: cs

def isDigit (c : Nat) : Bool := decide (0x30 ≤ c) && decide (c ≤ 0x39)

def hexValue (c : Nat) : Option Nat :=
  if 0x30 ≤ c ∧ c ≤ 0x39 then some (c - 0x30)
  else if 0x41 ≤ c ∧ c ≤ 0x46 then some (c - 0x41 + 10)
  else if 0x61 ≤ c ∧ c ≤ 0x66 then some (c - 0x61 + 10)
  else none

/-- The character denoted by a one-letter escape of a JSON string. -/
def escapeValue (e : Nat) : Option Nat :=
  if e = 0x22 then some 0x22          -- \"
  else if e = 0x5C then some 0x5C     -- \\
  else if e = 0x2F then some 0x2F     -- \/
  else if e = 0x62 then some 0x08     -- \b
  else if e = 0x66 then some 0x0C     -- \f
  else if e = 0x6E then some 0x0A     -- \n
  else if e = 0x72 then some 0x0D     -- \r
  else if e = 0x74 then some 0x09     -- \t
  else none

/-- The rest of a JSON string after its opening quote: the string denoted and
the text after the closing quote. -/
def parseStringChars : JSString → Option (JSString × JSString)
  | [] => none
  | c :: cs =>
    if c = 0x22 then some ([], cs)
    else if c = 0x5C then
      match cs with
      | [] => none
      | e :: rest =>
        if e = 0x75 then
          match rest with
          | h1 :: h2 :: h3 :: h4 :: rest4 =>
            match hexValue h1, hexValue h2, hexValue h3, hexValue h4 with
            | some a, some b, some c, some d =>
              (parseStringChars rest4).map fun r => ((a * 4096 + b * 256 + c * 16 + d) :: r.1, r.2)
            | _, _, _, _ => none
          | _ => none
        else
          match escapeValue e with
          | some v => (parseStringChars rest).map fun r => (v :: r.1, r.2)
          | none => none
    else if c < 0x20 then none
    else (parseStringChars cs).map fun r => (c :: r.1, r.2)

/-- The longest prefix of digits, and the rest. -/
def spanDigits : JSString → JSString × JSString
  | [] => ([], [])
  | c :: cs => if isDigit c then ((c :: (spanDigits cs).1), (spanDigits cs).2) else ([], c :: cs)

/-- The integer part of a JSON number: `0`, or a non-zero digit and digits. -/
def parseInt : JSString → Option (JSString × JSString)
  | [] => none
  | c :: cs =>
    if c = 0x30 then some ([0x30], cs)
    else if isDigit c then some (c :: (spanDigits cs).1, (spanDigits cs).2)
    else none

/-- The optional fraction of a JSON number: `.` and at least one digit. -/
def parseFrac : JSString → Option (JSString × JSString)
  | [] => some ([], [])
  | c :: cs =>
    if c = 0x2E then
      if (spanDigits cs).1 = [] then none else some (c :: (spanDigits cs).1, (spanDigits cs).2)
    else some ([], c :: cs)

/-- The optional exponent of a JSON number: `e` or `E`, an optional sign and
at least one digit. -/
def parseExp : JSString → Option (JSString × JSString)
  | [] => some ([], [])
  | c :: cs =>
    if c = 0x65 ∨ c = 0x45 then
      match cs with
      | [] => none
      | sg :: ds =>
        if sg = 0x2B ∨ sg = 0x2D then
          if (spanDigits ds).1 = [] then none
          else some (c :: sg :: (spanDigits ds).1, (spanDigits ds).2)
        else
          if (spanDigits cs).1 = [] then none
          else some (c :: (spanDigits cs).1, (spanDigits cs).2)
    else some ([], c :: cs)

/-- A JSON number: its lexeme and the text after it. -/
def parseNumber (s : JSString) : Option (JSString × JSString) :=
  let signed : JSString × JSString :=
    match s with
    | [] => ([], [])
    | c :: cs => if c = 0x2D then ([0x2D], cs) else ([], c :: cs)
  match parseInt signed.2 with
  | none => none
  | some (i, r1) =>
    match parseFrac r1 with
    | none => none
    | some (f, r2) =>
      match parseExp r2 with
      | none => none
      | some (e, r3) => some (signed.1 ++ i ++ f ++ e, r3)

/-- Sets member `k` of an object under construction. -/
def setMember (k : JSString) (v : JSValue) : List (JSString × JSValue) → List (JSString × JSValue)
  | [] => [(k, v)]
  | (k1, v1) :: ms => if k1 = k then (k1, v) :: ms else (k1, v1) :: setMember k v ms

/-- The elements of a non-empty array after `[`, up to and including `]`;
`pv` parses one value. -/
def parseElements (pv : JSString → Option (JSValue × JSString)) :
    Nat → JSString → Option (List JSValue × JSString)
  | 0, _ => none
  | n + 1, s =>
    match pv s with
    | none => none
    | some (v, rest) =>
      match skipWhitespace rest with
      | [] => none
      | c :: rest1 =>
        if c = 0x2C then (parseElements pv n rest1).map fun r => (v :: r.1, r.2)
        else if c = 0x5D then some ([v], rest1)
        else none

/-- The members of a non-empty object after `{`, up to and including `}`,
added to `acc`; `pv` parses one value. -/
def parseMembers (pv : JSString → Option (JSValue × JSString)) :
    Nat → List (JSString × JSValue) → JSString → Option (List (JSString × JSValue) × JSString)
  | 0, _, _ => none
  | n + 1, acc, s =>
    match skipWhitespace s with
    | [] => none
    | q :: afterQuote =>
      if q = 0x22 then
        match parseStringChars afterQuote with
        | none => none
        | some (key, rest) =>
          match skipWhitespace rest with
          | [] => none
          | colon :: rest1 =>
            if colon = 0x3A then
              match pv rest1 with
              | none => none
              | some (v, rest2) =>
                match skipWhitespace rest2 with
                | [] => none
                | c :: rest3 =>
                  if c = 0x2C then parseMembers pv n (setMember key v acc) rest3
                  else if c = 0x7D then some (setMember key v acc, rest3)
                  else none
            else none
      else none

/-- One JSON value, leading white space skipped, and the text after it.  The
fuel bounds the nesting depth and the number of elements of one array or
object. -/
def parseValue : Nat → JSString → Option (JSValue × JSString)
  | 0, _ => none
  | fuel + 1, s =>
    match skipWhitespace s with
    | [] => none
    | c :: cs =>
      if c = 0x22 then
        (parseStringChars cs).map fun r => (JSValue.string r.1, r.2)
      else if c = 0x5B then
        match skipWhitespace cs with
        | [] => none
        | d :: ds =>
          if d = 0x5D then some (JSValue.array [], ds)
          else (parseElements (parseValue fuel) fuel (d :: ds)).map fun r =>
            (JSValue.array r.1, r.2)
      else if c = 0x7B then
        match skipWhitespace cs with
        | [] => none
        | d :: ds =>
          if d = 0x7D then some (JSValue.object [], ds)
          else (parseMembers (parseValue fuel) fuel [] (d :: ds)).map fun r =>
            (JSValue.object r.1, r.2)
      else if (lit "null").isPrefixOf (c :: cs) then some (JSValue.null, (c :: cs).drop 4)
      else if (lit "true").isPrefixOf (c :: cs) then some (JSValue.bool true, (c :: cs).drop 4)
      else if (lit "false").isPrefixOf (c :: cs) then some (JSValue.bool false, (c :: cs).drop 5)
      else (parseNumber (c :: cs)).map fun r => (JSValue.number r.1, r.2)

/-- The call `JSON.parse(text)`; `none`: a `SyntaxError` is thrown. -/
def jsonParse (text : JSString) : Option JSValue :=
  match parseValue (text.length + 1) text with
  | none => none
  | some (v, rest) => if skipWhitespace rest = [] then some v else none

/-- The value `['Software Engineer']` of the `catch` block. -/
def defaultStrings : JSValue := JSValue.array [JSValue.string (lit "Software Engineer")]

/-- The value of `dataStrings` after the `try`/`catch` of lines 126-131, given
`typedEl.getAttribute('data-strings')` (`none` for `null`). -/
def loadDataStrings (attr : Option JSString) : JSValue :=
  let text : JSString :=
    match attr with
    | some (c :: cs) => c :: cs
    | _ => lit "[]"
  match jsonParse text with
  | some v => v
  | none => defaultStrings

/-! ## Contact form (`script.js` lines 172-192) -/

/-- White space and line terminators, the code units removed by
`String.prototype.trim`. -/
def isTrimmed (c : Nat) : Bool :=
  c == 0x09 || c == 0x0A || c == 0x0B || c == 0x0C || c == 0x0D || c == 0x20 || c == 0xA0 ||
    c == 0x1680 || (decide (0x2000 ≤ c) && decide (c ≤ 0x200A)) || c == 0x2028 || c == 0x2029 ||
    c == 0x202F || c == 0x205F || c == 0x3000 || c == 0xFEFF

/-- The call `s.trim()`. -/
def trim (s : JSString) : JSString :=
  ((s.dropWhile isTrimmed).reverse.dropWhile isTrimmed).reverse

def isLeadingSurrogate (c : Nat) : Bool := decide (0xD800 ≤ c) && decide (c ≤ 0xDBFF)

def isTrailingSurrogate (c : Nat) : Bool := decide (0xDC00 ≤ c) && decide (c ≤ 0xDFFF)

/-- The code units `encodeURIComponent` copies: `A-Z a-z 0-9 - _ . ! ~ * ' ( )`. -/
def isUnescaped (c : Nat) : Bool :=
  (decide (0x41 ≤ c) && decide (c ≤ 0x5A)) || (decide (0x61 ≤ c) && decide (c ≤ 0x7A)) ||
    (decide (0x30 ≤ c) && decide (c ≤ 0x39)) ||
    c == 0x2D || c == 0x5F || c == 0x2E || c == 0x21 || c == 0x7E || c == 0x2A || c == 0x27 ||
    c == 0x28 || c == 0x29

/-- The octets of the UTF-8 encoding of a code point. -/
def utf8Encode (cp : Nat) : List Nat :=
  if cp < 0x80 then [cp]
  else if cp < 0x800 then [0xC0 + cp / 0x40, 0x80 + cp % 0x40]
  else if cp < 0x10000 then [0xE0 + cp / 0x1000, 0x80 + cp / 0x40 % 0x40, 0x80 + cp % 0x40]
  else [0xF0 + cp / 0x40000, 0x80 + cp / 0x1000 % 0x40, 0x80 + cp / 0x40 % 0x40, 0x80 + cp % 0x40]

/-- The uppercase hexadecimal digit of a value below 16. -/
def hexDigit (n : Nat) : Nat := if n < 10 then 0x30 + n else 0x41 + (n - 10)

/-- An octet as `%` and two uppercase hexadecimal digits. -/
def percentEncode (octet : Nat) : JSString := [0x25, hexDigit (octet / 16), hexDigit (octet % 16)]

/-- The escape of a code point: each octet of its UTF-8 encoding, percent-encoded. -/
def escapeCodePoint (cp : Nat) : JSString :=
  ((utf8Encode cp).map percentEncode).flatten

/-- The code point of a surrogate pair. -/
def surrogatePairToCodePoint (lead trail : Nat) : Nat :=
  (lead - 0xD800) * 0x400 + (trail - 0xDC00) + 0x10000

/-- The call `encodeURIComponent(s)`; `none`: a `URIError` is thrown, which happens at
a surrogate code unit that is not part of a pair. -/
def encodeURIComponent : JSString → Option JSString
  | [] => some []
  | c :: rest =>
    if isUnescaped c then (encodeURIComponent rest).map fun r => c :: r
    else if isTrailingSurrogate c then none
    else if isLeadingSurrogate c then
      match rest with
      | [] => none
      | d :: rest2 =>
        if isTrailingSurrogate d then
          (encodeURIComponent rest2).map fun r => escapeCodePoint (surrogatePairToCodePoint c d) ++ r
        else none
    else (encodeURIComponent rest).map fun r => escapeCodePoint c ++ r

/-- The call `s.isWellFormed()`: no surrogate code unit outside a pair. -/
def isWellFormed : JSString → Bool
  | [] => true
  | c :: rest =>
    if isTrailingSurrogate c then false
    else if isLeadingSurrogate c then
      match rest with
      | [] => false
      | d :: rest2 => isTrailingSurrogate d && isWellFormed rest2
    else isWellFormed rest

/-- A form control: its value, the value `reset()` restores, and its custom
validity message. -/
structure Field where
  value : JSString
  defaultValue : JSString
  customValidity : JSString
  deriving DecidableEq

/-- The results of `contactForm.querySelector('#email')` and
`contactForm.querySelector('#message')`; `none` for `null`. -/
structure ContactForm where
  email : Option Field
  message : Option Field
  deriving DecidableEq

/-- What a run of the submit listener does beyond the fields, in order. -/
inductive Effect where
  | preventDefault
  | reportValidity
  /-- The assignment `window.location.href = href`. -/
  | navigate (href : JSString)
  /-- The call `contactForm.reset()`. -/
  | reset
  /-- The call of `encodeURIComponent` threw; the rest of the listener did not run. -/
  | uriError
  deriving DecidableEq

def Field.reset (f : Field) : Field := { f with value := f.defaultValue }

def Field.setCustomValidity (msg : JSString) (f : Field) : Field := { f with customValidity := msg }

/-- The constant part of the `mailto` target. -/
def mailtoPrefix : JSString :=
  lit "mailto:balajimore9193@gmail.com?subject=Portfolio%20Contact&body="

/-- The submit listener of `#contact-form`: the form afterwards and what the
run did. -/
def submitHandler (form : ContactForm) : ContactForm × List Effect :=
  match form.email, form.message with
  | some email, some message =>
    if trim email.value = [] ∨ trim message.value = [] then
      ({ form with email := some (email.setCustomValidity (lit "Please fill in email and message.")) },
        [Effect.preventDefault, Effect.reportValidity])
    else
      match encodeURIComponent (lit "From: " ++ email.value ++ lit "\n\n" ++ message.value) with
      | none =>
        ({ form with email := some (email.setCustomValidity []) },
          [Effect.preventDefault, Effect.uriError])
      | some body =>
        ({ email := some (email.setCustomValidity []).reset, message := some message.reset },
          [Effect.preventDefault, Effect.navigate (mailtoPrefix ++ body), Effect.reset])
  | _, _ => (form, [Effect.preventDefault])

/-- The escape of a text as the contract words it: a character among
`A-Z a-z 0-9 - _ . ! ~ * ' ( )` stands for itself, and every other character is
written as its UTF-8 bytes, each as `%` and two uppercase hexadecimal digits. -/
def escapeText : List Char → JSString
  | [] => []
  | c :: cs =>
    (if isUnescaped c.toNat then [c.toNat] else escapeCodePoint c.toNat) ++ escapeText cs

/-! ## Theorems: theme -/

theorem lit_light_ne_dark : lit "light" ≠ lit "dark" := by decide

/-- Two clicks on the theme toggle restore a mode that is `light` or `dark`. -/
theorem themeToggleClick_twice_of_mode (env : ThemeEnv)
    (h : env.dataTheme = some (lit "light") ∨ env.dataTheme = some (lit "dark")) :
    (themeToggleClick (themeToggleClick env)).dataTheme = env.dataTheme := by
  rcases h with h | h
  · have h1 : env.dataTheme ≠ some (lit "dark") := by rw [h]; decide
    simp [themeToggleClick, setTheme, h1, h]
  · simp [themeToggleClick, setTheme, h]

/-- A click on the theme toggle leaves the mode `light` or `dark`. -/
theorem themeToggleClick_mode (env : ThemeEnv) :
    (themeToggleClick env).dataTheme = some (lit "light") ∨
      (themeToggleClick env).dataTheme = some (lit "dark") := by
  unfold themeToggleClick setTheme
  by_cases h : env.dataTheme = some (lit "dark") <;> simp [h]

theorem themeToggleClick_iterate_mode (env : ThemeEnv) (n : Nat)
    (h : env.dataTheme = some (lit "light") ∨ env.dataTheme = some (lit "dark")) :
    (themeToggleClick^[n] env).dataTheme = some (lit "light") ∨
      (themeToggleClick^[n] env).dataTheme = some (lit "dark") := by
  cases n with
  | zero => simpa using h
  | succ n =>
    rw [Function.iterate_succ_apply']
    exact themeToggleClick_mode _

/-- C5: theme initialization.  With nothing persisted (`null`, or the empty
string, which is falsy) the document mode and the persisted value both become
`light` when the system prefers light and `dark` otherwise; with `dark`
persisted the mode becomes `dark` whatever the system preference. -/
theorem initTheme_spec (sys : Bool) (mode : Option JSString) :
    initTheme { stored := none, systemLight := sys, dataTheme := mode }
        = { stored := some (if sys then lit "light" else lit "dark"), systemLight := sys,
            dataTheme := some (if sys then lit "light" else lit "dark") } ∧
      initTheme { stored := some [], systemLight := sys, dataTheme := mode }
        = { stored := some (if sys then lit "light" else lit "dark"), systemLight := sys,
            dataTheme := some (if sys then lit "light" else lit "dark") } ∧
      initTheme { stored := some (lit "dark"), systemLight := sys, dataTheme := mode }
        = { stored := some (lit "dark"), systemLight := sys, dataTheme := some (lit "dark") } := by
  refine ⟨?_, ?_, ?_⟩
  · simp [initTheme, setTheme, getPreferredTheme]
  · simp [initTheme, setTheme, getPreferredTheme]
  · cases sys <;> rfl

/-- C4: for every persisted preference value (absent, empty, `light` or `dark`:
the values of the theme preference, and the only ones `setTheme` ever writes
from them) and every system colour-scheme preference, in every page state
reached after initialization and any number of toggle clicks, two further
clicks on the theme toggle return the document mode to the value it had before
them. -/
theorem themeToggleClick_twice (env : ThemeEnv) (clicks : Nat)
    (h : env.stored = none ∨ env.stored = some [] ∨ env.stored = some (lit "light") ∨
      env.stored = some (lit "dark")) :
    (themeToggleClick (themeToggleClick (themeToggleClick^[clicks] (initTheme env)))).dataTheme
      = (themeToggleClick^[clicks] (initTheme env)).dataTheme := by
  apply themeToggleClick_twice_of_mode
  apply themeToggleClick_iterate_mode
  rcases h with h | h | h | h
  · cases hs : env.systemLight <;> simp [initTheme, setTheme, getPreferredTheme, h, hs]
  · cases hs : env.systemLight <;> simp [initTheme, setTheme, getPreferredTheme, h, hs]
  · left; unfold initTheme setTheme getPreferredTheme; simp only [h]; rfl
  · right; unfold initTheme setTheme getPreferredTheme; simp only [h]; rfl

theorem themeToggleClick_twice_witness :
    (themeToggleClick (themeToggleClick (themeToggleClick^[3]
        (initTheme { stored := none, systemLight := false, dataTheme := none })))).dataTheme
      = (themeToggleClick^[3]
        (initTheme { stored := none, systemLight := false, dataTheme := none })).dataTheme :=
  themeToggleClick_twice { stored := none, systemLight := false, dataTheme := none } 3 (Or.inl rfl)

/-! ## Theorems: navigation -/

theorem ClassList.not_mem_remove (c : JSString) (l : ClassList) : c ∉ ClassList.remove c l := by
  simp [ClassList.remove]

theorem ClassList.remove_of_not_mem (c : JSString) (l : ClassList) (h : c ∉ l) :
    ClassList.remove c l = l := by
  simp only [ClassList.remove, List.filter_eq_self]
  intro a ha
  simp only [ne_eq, decide_not, Bool.not_eq_true', decide_eq_false_iff_not]
  rintro rfl
  exact h ha

theorem ClassList.mem_toggle_iff (c : JSString) (l : ClassList) :
    c ∈ ClassList.toggle c l ↔ c ∉ l := by
  unfold ClassList.toggle
  by_cases h : c ∈ l
  · simp [h, ClassList.not_mem_remove]
  · simp [h]

/-- C7: a click on the navigation toggle sets `aria-expanded` to `'false'`
when it was `'true'` and to `'true'` otherwise (absent or any other value), and
the panel has the class `open` afterwards exactly when it did not before; a
click on a navigation link leaves `aria-expanded` equal to `'false'` and the
panel without `open` whatever the prior state, and a second link click changes
nothing. -/
theorem nav_click_spec (s : NavState) :
    (navToggleClick s).ariaExpanded
        = some (if s.ariaExpanded = some (lit "true") then lit "false" else lit "true") ∧
      (navToggleClick (navToggleClick s)).ariaExpanded
        = some (if s.ariaExpanded = some (lit "true") then lit "true" else lit "false") ∧
      (lit "open" ∈ (navToggleClick s).panelClasses ↔ lit "open" ∉ s.panelClasses) ∧
      (navLinkClick s).ariaExpanded = some (lit "false") ∧
      lit "open" ∉ (navLinkClick s).panelClasses ∧
      navLinkClick (navLinkClick s) = navLinkClick s := by
  have hft : lit "false" ≠ lit "true" := by decide
  refine ⟨?_, ?_, ?_, ?_, ?_, ?_⟩
  · by_cases h : s.ariaExpanded = some (lit "true") <;> simp [navToggleClick, h]
  · by_cases h : s.ariaExpanded = some (lit "true") <;> simp [navToggleClick, h, hft]
  · exact ClassList.mem_toggle_iff _ _
  · rfl
  · exact ClassList.not_mem_remove _ _
  · simp only [navLinkClick]
    rw [ClassList.remove_of_not_mem _ _ (ClassList.not_mem_remove _ _)]

/-- C10: from the collapsed navigation, a toggle click followed by a link click
leaves `aria-expanded` equal to `'false'` and the panel without `open`, while
`aria-label` is still `'Close menu'`: the link listener does not restore the
label that the toggle listener maintains. -/
theorem nav_label_stale_after_link_click :
    ([NavClick.toggle, NavClick.link].foldl navClick navCollapsed).ariaExpanded
        = some (lit "false") ∧
      lit "open" ∉ ([NavClick.toggle, NavClick.link].foldl navClick navCollapsed).panelClasses ∧
      ([NavClick.toggle, NavClick.link].foldl navClick navCollapsed).ariaLabel
        = some (lit "Close menu") ∧
      ¬ (([NavClick.toggle, NavClick.link].foldl navClick navCollapsed).ariaExpanded
            = some (lit "true") ↔
          ([NavClick.toggle, NavClick.link].foldl navClick navCollapsed).ariaLabel
            = some (lit "Close menu")) := by
  decide

/-! ## Theorems: throttled reveal -/

theorem RevealListeners.dispatch_ran (l : RevealListeners) (ev : WindowEvent × Int) :
    (l.dispatch ev).2 = decide (100 ≤ ev.2 - l.last ev.1) := by
  obtain ⟨k, t⟩ := ev
  cases k <;>
    by_cases h : 100 ≤ t - l.onScroll.last <;>
    by_cases h2 : 100 ≤ t - l.onResize.last <;>
    simp [RevealListeners.dispatch, RevealListeners.last, Throttle.call, h, h2]

theorem RevealListeners.dispatch_last_same (l : RevealListeners) (ev : WindowEvent × Int) :
    (l.dispatch ev).1.last ev.1 = if 100 ≤ ev.2 - l.last ev.1 then ev.2 else l.last ev.1 := by
  obtain ⟨k, t⟩ := ev
  cases k <;>
    by_cases h : 100 ≤ t - l.onScroll.last <;>
    by_cases h2 : 100 ≤ t - l.onResize.last <;>
    simp [RevealListeners.dispatch, RevealListeners.last, Throttle.call, h, h2]

theorem RevealListeners.dispatch_last_other (l : RevealListeners) (ev : WindowEvent × Int)
    (k : WindowEvent) (h : ev.1 ≠ k) : (l.dispatch ev).1.last k = l.last k := by
  obtain ⟨e, t⟩ := ev
  cases e <;> cases k <;> simp_all [RevealListeners.dispatch, RevealListeners.last]

theorem RevealListeners.after_append (l : RevealListeners) (xs ys : List (WindowEvent × Int)) :
    l.after (xs ++ ys) = (l.after xs).after ys := by
  induction xs generalizing l with
  | nil => rfl
  | cons x xs ih => simp [RevealListeners.after, ih]

theorem RevealListeners.dispatch_last_le (l : RevealListeners) (ev : WindowEvent × Int)
    (k : WindowEvent) : l.last k ≤ (l.dispatch ev).1.last k := by
  by_cases h : ev.1 = k
  · subst h
    rw [RevealListeners.dispatch_last_same]
    split <;> omega
  · rw [RevealListeners.dispatch_last_other l ev k h]

theorem RevealListeners.after_last_le (l : RevealListeners) (evs : List (WindowEvent × Int))
    (k : WindowEvent) : l.last k ≤ (l.after evs).last k := by
  induction evs generalizing l with
  | nil => exact le_refl _
  | cons x xs ih =>
    exact le_trans (RevealListeners.dispatch_last_le l x k) (ih (l.dispatch x).1)

/-- Events of kind `k` that arrive before `last + 100`, and events of the other
kind, leave the `last` of the listener for `k` as it is. -/
theorem RevealListeners.after_last_eq (l : RevealListeners) (evs : List (WindowEvent × Int))
    (k : WindowEvent) (h : ∀ x ∈ evs, x.1 = k → x.2 < l.last k + 100) :
    (l.after evs).last k = l.last k := by
  induction evs generalizing l with
  | nil => rfl
  | cons x xs ih =>
    have hx : (l.dispatch x).1.last k = l.last k := by
      by_cases hk : x.1 = k
      · have := h x (List.mem_cons_self _ _) hk
        subst hk
        rw [RevealListeners.dispatch_last_same, if_neg (by omega)]
      · exact RevealListeners.dispatch_last_other l x k hk
    show ((l.dispatch x).1.after xs).last k = l.last k
    rw [ih (l.dispatch x).1 (by
      intro y hy hyk
      rw [hx]
      exact h y (List.mem_cons_of_mem _ hy) hyk), hx]

theorem revealRuns_iff (pre : List (WindowEvent × Int)) (ev : WindowEvent × Int) :
    revealRuns pre ev = true ↔ 100 ≤ ev.2 - (revealListeners.after pre).last ev.1 := by
  simp [revealRuns, RevealListeners.dispatch_ran]

theorem revealListeners_last (k : WindowEvent) : revealListeners.last k = 0 := by
  cases k <;> rfl

/-- After an event that ran the pass, `last` of its listener is its time. -/
theorem RevealListeners.last_after_run (pre : List (WindowEvent × Int)) (a : WindowEvent × Int)
    (h : revealRuns pre a = true) : (revealListeners.after (pre ++ [a])).last a.1 = a.2 := by
  rw [RevealListeners.after_append]
  show ((revealListeners.after pre).dispatch a).1.last a.1 = a.2
  rw [RevealListeners.dispatch_last_same, if_pos ((revealRuns_iff pre a).1 h)]

/-- C8 (as stated) fails: a scroll event at 1000 ms and a resize event at
1010 ms both run the reveal pass, 10 ms apart, because the scroll listener and
the resize listener are throttled separately. -/
theorem throttle_shared_window_counterexample :
    revealRuns [] (WindowEvent.scroll, 1000) = true ∧
      revealRuns [(WindowEvent.scroll, 1000)] (WindowEvent.resize, 1010) = true ∧
      ¬ ((1000 : Int) + 100 ≤ 1010) := by
  decide

/-- C8 (amended): the scroll listener and the resize listener are each
throttled on their own.  For two events `a`, then `b`, of the same kind, with
any events `pre` before `a` and `mid` between them: (1) the first event of its
kind, at a time of at least 100 ms, runs the reveal pass; (2) when both run the
pass they are at least 100 ms apart; (3) when `a` ran the pass and `b` comes
less than 100 ms after it, `b` is dropped; (4) when `a` ran the pass, every
event of that kind in between came less than 100 ms after `a`, and `b` comes
100 ms or more after `a`, then `b` runs the pass. -/
theorem throttle_per_listener (pre mid : List (WindowEvent × Int)) (a b : WindowEvent × Int)
    (hk : a.1 = b.1) :
    ((∀ x ∈ pre, x.1 ≠ a.1) → 100 ≤ a.2 → revealRuns pre a = true) ∧
      (revealRuns pre a = true → revealRuns (pre ++ a :: mid) b = true → a.2 + 100 ≤ b.2) ∧
      (revealRuns pre a = true → b.2 < a.2 + 100 → revealRuns (pre ++ a :: mid) b = false) ∧
      (revealRuns pre a = true → (∀ x ∈ mid, x.1 = a.1 → x.2 < a.2 + 100) → a.2 + 100 ≤ b.2 →
        revealRuns (pre ++ a :: mid) b = true) := by
  have happ : pre ++ a :: mid = (pre ++ [a]) ++ mid := by simp
  have hsep : revealRuns pre a = true → revealRuns (pre ++ a :: mid) b = true →
      a.2 + 100 ≤ b.2 := by
    intro ha hb
    have h1 := RevealListeners.last_after_run pre a ha
    have h2 := (revealRuns_iff _ _).1 hb
    rw [happ, RevealListeners.after_append, ← hk] at h2
    have h3 := RevealListeners.after_last_le (revealListeners.after (pre ++ [a])) mid a.1
    omega
  refine ⟨?_, hsep, ?_, ?_⟩
  · intro hpre ht
    rw [revealRuns_iff, RevealListeners.after_last_eq _ _ _ (fun x hx hxa => absurd hxa (hpre x hx)),
      revealListeners_last]
    omega
  · intro ha hlt
    cases hb : revealRuns (pre ++ a :: mid) b with
    | false => rfl
    | true => have := hsep ha hb; omega
  · intro ha hmid hge
    have h1 := RevealListeners.last_after_run pre a ha
    rw [revealRuns_iff, happ, RevealListeners.after_append, ← hk,
      RevealListeners.after_last_eq _ _ _ (by rw [h1]; exact hmid), h1]
    omega

theorem throttle_per_listener_witness :
    ((WindowEvent.scroll, (1000 : Int)).1 = (WindowEvent.scroll, (1100 : Int)).1 ∧
        revealRuns [] (WindowEvent.scroll, 1000) = true ∧
        revealRuns [(WindowEvent.scroll, 1000), (WindowEvent.resize, 1010)]
          (WindowEvent.scroll, 1050) = false) ∧
      (((∀ x ∈ ([] : List (WindowEvent × Int)), x.1 ≠ (WindowEvent.scroll, (1000 : Int)).1) →
          100 ≤ (WindowEvent.scroll, (1000 : Int)).2 →
          revealRuns [] (WindowEvent.scroll, 1000) = true) ∧
        (revealRuns [] (WindowEvent.scroll, 1000) = true →
          revealRuns ([] ++ (WindowEvent.scroll, 1000) ::
            [(WindowEvent.resize, 1010), (WindowEvent.scroll, 1050)]) (WindowEvent.scroll, 1100)
              = true →
          (WindowEvent.scroll, (1000 : Int)).2 + 100 ≤ (WindowEvent.scroll, (1100 : Int)).2) ∧
        (revealRuns [] (WindowEvent.scroll, 1000) = true →
          (WindowEvent.scroll, (1100 : Int)).2 < (WindowEvent.scroll, (1000 : Int)).2 + 100 →
          revealRuns ([] ++ (WindowEvent.scroll, 1000) ::
            [(WindowEvent.resize, 1010), (WindowEvent.scroll, 1050)]) (WindowEvent.scroll, 1100)
              = false) ∧
        (revealRuns [] (WindowEvent.scroll, 1000) = true →
          (∀ x ∈ [(WindowEvent.resize, (1010 : Int)), (WindowEvent.scroll, 1050)],
            x.1 = (WindowEvent.scroll, (1000 : Int)).1 →
            x.2 < (WindowEvent.scroll, (1000 : Int)).2 + 100) →
          (WindowEvent.scroll, (1000 : Int)).2 + 100 ≤ (WindowEvent.scroll, (1100 : Int)).2 →
          revealRuns ([] ++ (WindowEvent.scroll, 1000) ::
            [(WindowEvent.resize, 1010), (WindowEvent.scroll, 1050)]) (WindowEvent.scroll, 1100)
              = true)) :=
  ⟨⟨rfl, by decide, by decide⟩,
    throttle_per_listener [] [(WindowEvent.resize, 1010), (WindowEvent.scroll, 1050)]
      (WindowEvent.scroll, 1000) (WindowEvent.scroll, 1100) rfl⟩

/-! ## Theorems: section entrance -/

theorem ClassList.mem_add (c : JSString) (l : ClassList) : c ∈ ClassList.add c l := by
  unfold ClassList.add
  split
  · assumption
  · simp

/-- C6 (as stated) fails: with the reduced-motion preference active the
entrance block is skipped, and a section `about` does not receive
`section-visible` (with or without `IntersectionObserver`). -/
theorem initSections_reduced_motion_counterexample :
    initSections true true [{ id := lit "about", classList := [], sectionDelay := none }]
        = ([{ id := lit "about", classList := [], sectionDelay := none }], []) ∧
      initSections true false [{ id := lit "about", classList := [], sectionDelay := none }]
        = ([{ id := lit "about", classList := [], sectionDelay := none }], []) ∧
      ¬ (∀ sec ∈ (initSections true false
            [{ id := lit "about", classList := [], sectionDelay := none }]).1,
          sec.id ≠ lit "hero" → lit "section-visible" ∈ sec.classList) := by
  decide

/-- C6 (amended): for every list of sections, when `IntersectionObserver` is
unavailable and the reduced-motion preference is not active, initialization
keeps the sections (same ids, in order), every section whose id is not `hero`
has `section-visible` afterwards, a `hero` section is unchanged, and no section
is observed; when the reduced-motion preference is active, initialization
changes no section and observes none. -/
theorem initSections_fallback (sectionNodes : List Section) (hasIntersectionObserver : Bool) :
    ((initSections false false sectionNodes).1.map Section.id = sectionNodes.map Section.id ∧
        (∀ sec ∈ (initSections false false sectionNodes).1,
          sec.id ≠ lit "hero" → lit "section-visible" ∈ sec.classList) ∧
        (∀ sec ∈ sectionNodes, sec.id = lit "hero" →
          sec ∈ (initSections false false sectionNodes).1) ∧
        (initSections false false sectionNodes).2 = []) ∧
      initSections true hasIntersectionObserver sectionNodes = (sectionNodes, []) := by
  refine ⟨?_, by simp [initSections]⟩
  by_cases hlen : sectionNodes.length = 0
  · have hnil : sectionNodes = [] := List.length_eq_zero.mp hlen
    subst hnil
    simp [initSections]
  · have hdef : initSections false false sectionNodes
        = (sectionNodes.map fun sec =>
            if sec.id = lit "hero" then sec
            else { sec with classList := ClassList.add (lit "section-visible") sec.classList },
          []) := by
      simp [initSections, hlen]
    rw [hdef]
    refine ⟨?_, ?_, ?_, rfl⟩
    · simp only [List.map_map]
      apply List.map_congr_left
      intro sec _
      simp only [Function.comp]
      split <;> rfl
    · intro sec hsec hid
      simp only [List.mem_map] at hsec
      obtain ⟨sec0, _, rfl⟩ := hsec
      by_cases h0 : sec0.id = lit "hero"
      · simp [h0] at hid
      · simp only [h0, if_false]
        exact ClassList.mem_add _ _
    · intro sec hsec hid
      simp only [List.mem_map]
      exact ⟨sec, hsec, by simp [hid]⟩

/-! ## Theorems: typed tagline -/

theorem typeRun_add (ds : List JSString) (a b : Nat) (s s1 s2 : TypedState)
    (t1 t2 : List Tick) (h1 : typeRun ds a s = some (t1, s1))
    (h2 : typeRun ds b s1 = some (t2, s2)) :
    typeRun ds (a + b) s = some (t1 ++ t2, s2) := by
  induction a generalizing s t1 with
  | zero =>
    simp only [typeRun, Option.some.injEq, Prod.mk.injEq] at h1
    obtain ⟨rfl, rfl⟩ := h1
    simpa using h2
  | succ a ih =>
    rw [Nat.add_right_comm]
    simp only [typeRun] at h1 ⊢
    cases hstep : typeStep ds s with
    | none => simp [hstep] at h1
    | some r =>
      obtain ⟨s', t⟩ := r
      simp only [hstep] at h1 ⊢
      cases hrun : typeRun ds a s' with
      | none => simp [hrun] at h1
      | some r2 =>
        obtain ⟨ts, s''⟩ := r2
        simp only [hrun, Option.some.injEq, Prod.mk.injEq] at h1
        obtain ⟨rfl, rfl⟩ := h1
        rw [ih s' ts hrun]
        rfl

theorem typeRun_typing (ds : List JSString) (i : Nat) (s : JSString) (hi : ds[i]? = some s) :
    ∀ d c, c + d + 1 = s.length →
      typeRun ds (d + 1) { index := i, charIndex := c, isDeleting := false }
        = some ((List.range (d + 1)).map (fun k =>
              ({ text := some (s.take (c + k + 1)),
                 delay := if c + k + 1 = s.length then 2000 else 80 } : Tick)),
            { index := i, charIndex := s.length, isDeleting := true }) := by
  intro d
  induction d with
  | zero =>
    intro c hc
    have hc1 : c + 1 = s.length := by omega
    simp [typeRun, typeStep, hi, hc1, substring0, List.range_succ]
  | succ d ih =>
    intro c hc
    have hc1 : c + 1 ≠ s.length := by omega
    have hih := ih (c + 1) (by omega)
    rw [typeRun]
    simp only [typeStep, hi, hc1, if_false, Bool.false_eq_true]
    rw [hih, List.range_succ_eq_map (d + 1)]
    simp only [List.map_cons, List.map_map, substring0, Nat.add_zero, hc1, if_false]
    congr 3
    apply List.map_congr_left
    intro k _
    simp only [Function.comp, Nat.succ_eq_add_one]
    have e : c + (k + 1) + 1 = c + 1 + k + 1 := by omega
    rw [e]

theorem typeRun_deleting (ds : List JSString) (i : Nat) (s : JSString) (hi : ds[i]? = some s) :
    ∀ c, typeRun ds c { index := i, charIndex := c, isDeleting := true }
        = some ((List.range c).map (fun k =>
              ({ text := some (s.take (c - 1 - k)), delay := 50 } : Tick)),
            { index := i, charIndex := 0, isDeleting := true }) := by
  intro c
  induction c with
  | zero => simp [typeRun]
  | succ c ih =>
    rw [typeRun]
    simp only [typeStep, hi, if_true, Nat.add_one_ne_zero, if_false, Nat.add_sub_cancel]
    rw [ih, List.range_succ_eq_map c]
    simp only [List.map_cons, List.map_map, substring0, Nat.sub_zero]
    congr 3
    apply List.map_congr_left
    intro k _
    simp only [Function.comp, Nat.succ_eq_add_one]
    have e : c - (k + 1) = c - 1 - k := by omega
    rw [e]

/-- One whole cycle on a non-empty string. -/
theorem typeRun_cycle (ds : List JSString) (i : Nat) (s : JSString) (hi : ds[i]? = some s)
    (hs : s ≠ []) :
    typeRun ds (2 * s.length + 1) { index := i, charIndex := 0, isDeleting := false }
      = some (typingTicks s ++ deletingTicks s ++ [switchTick],
          { index := (i + 1) % ds.length, charIndex := 0, isDeleting := false }) := by
  have hlen : 0 < s.length := List.length_pos.mpr hs
  obtain ⟨d, hd⟩ : ∃ d, s.length = d + 1 := ⟨s.length - 1, by omega⟩
  have h1 := typeRun_typing ds i s hi d 0 (by omega)
  have h2 := typeRun_deleting ds i s hi s.length
  have h3 : typeRun ds 1 { index := i, charIndex := 0, isDeleting := true }
      = some ([switchTick], { index := (i + 1) % ds.length, charIndex := 0, isDeleting := false }) := by
    simp [typeRun, typeStep, hi, switchTick]
  have h12 := typeRun_add ds (d + 1) s.length _ _ _ _ _ h1 h2
  have h123 := typeRun_add ds (d + 1 + s.length) 1 _ _ _ _ _ h12 h3
  have e : 2 * s.length + 1 = d + 1 + s.length + 1 := by omega
  rw [e, h123]
  simp only [typingTicks, deletingTicks, ← hd, Nat.zero_add]

/-- When no string is empty, the loop reaches the start of every later string. -/
theorem typeRun_reaches (ds : List JSString) (i : Nat) (hi : i < ds.length)
    (hne : ∀ x ∈ ds, x ≠ []) (m : Nat) :
    ∃ k ticks, typeRun ds k { index := i, charIndex := 0, isDeleting := false }
      = some (ticks, { index := (i + m) % ds.length, charIndex := 0, isDeleting := false }) := by
  induction m with
  | zero => exact ⟨0, [], by simp [typeRun, Nat.mod_eq_of_lt hi]⟩
  | succ m ih =>
    obtain ⟨k, ticks, hk⟩ := ih
    have hj : (i + m) % ds.length < ds.length := Nat.mod_lt _ (by omega)
    have hget : ds[(i + m) % ds.length]? = some (ds[(i + m) % ds.length]) :=
      List.getElem?_eq_getElem hj
    have hs : ds[(i + m) % ds.length] ≠ [] := hne _ (List.getElem_mem _)
    have hc := typeRun_cycle ds _ _ hget hs
    have h := typeRun_add ds _ _ _ _ _ _ _ hk hc
    have e : ((i + m) % ds.length + 1) % ds.length = (i + (m + 1)) % ds.length := by
      rw [Nat.mod_add_mod, Nat.add_assoc]
    rw [e] at h
    exact ⟨_, _, h⟩

/-- On an empty string the typing branch never reaches `charIndex === 0`: every
call displays the empty text, asks for the next call 80 ms later and only
increments `charIndex`. -/
theorem typeRun_empty_string (ds : List JSString) (i : Nat) (hi : ds[i]? = some []) :
    ∀ n c, typeRun ds n { index := i, charIndex := c, isDeleting := false }
      = some (List.replicate n { text := some [], delay := 80 },
          { index := i, charIndex := c + n, isDeleting := false }) := by
  intro n
  induction n with
  | zero => intro c; simp [typeRun]
  | succ n ih =>
    intro c
    rw [typeRun]
    simp only [typeStep, hi, Bool.false_eq_true, if_false, List.length_nil, Nat.add_one_ne_zero,
      substring0, List.take_nil]
    rw [ih (c + 1)]
    simp only [List.replicate_succ]
    congr 3
    omega

/-- C3 (as stated) fails.  For `["A","BB"]` the texts displayed by the first
nine calls of `type()` are `A`, empty, `B`, `BB`, `B`, empty, `A`: the fifth is
`B`, so they do not follow `A`, empty, `B`, `BB`, empty, `A`.  And for the list
`["", "A"]` the loop never leaves the empty string at index 0: after any number
of calls it is still typing at index 0. -/
theorem typed_tagline_counterexample :
    typedTexts [lit "A", lit "BB"] 9
        = some [lit "A", [], lit "B", lit "BB", lit "B", [], lit "A"] ∧
      (typedTexts [lit "A", lit "BB"] 9).map (fun r => r.take 6)
        ≠ some [lit "A", [], lit "B", lit "BB", [], lit "A"] ∧
      (∀ n, typeRun [[], lit "A"] n typedStart
        = some (List.replicate n { text := some [], delay := 80 },
            { index := 0, charIndex := n, isDeleting := false })) := by
  refine ⟨by decide, by decide, ?_⟩
  intro n
  have h := typeRun_empty_string [[], lit "A"] 0 rfl n 0
  simpa [typedStart] using h

/-- C3 (amended): for every list of strings and every index `i` whose string
`s` is not empty, `type()` started in state (typing, index `i`, offset 0)
displays in order the prefixes of `s` of lengths `1, ..., len` (the next call
80 ms later, 2000 ms later once the whole string is displayed), then the
prefixes of lengths `len - 1, ..., 0` (50 ms apart), then displays nothing,
asks for the next call 800 ms later and is in state (typing, index
`(i + 1) mod length`, offset 0); when no string of the list is empty, the start
of every later string is reached; for `["A","BB"]` the displayed texts are `A`,
empty, `B`, `BB`, `B`, empty, `A`. -/
theorem typed_tagline_cycle (ds : List JSString) (i : Nat) (s : JSString)
    (hi : ds[i]? = some s) (hs : s ≠ []) :
    typeRun ds (2 * s.length + 1) { index := i, charIndex := 0, isDeleting := false }
        = some (typingTicks s ++ deletingTicks s ++ [switchTick],
            { index := (i + 1) % ds.length, charIndex := 0, isDeleting := false }) ∧
      ((∀ x ∈ ds, x ≠ []) → ∀ m, ∃ k ticks,
        typeRun ds k { index := i, charIndex := 0, isDeleting := false }
          = some (ticks, { index := (i + m) % ds.length, charIndex := 0, isDeleting := false })) ∧
      typedTexts [lit "A", lit "BB"] 9
        = some [lit "A", [], lit "B", lit "BB", lit "B", [], lit "A"] := by
  refine ⟨typeRun_cycle ds i s hi hs, ?_, by decide⟩
  intro hne m
  have hlt : i < ds.length := by
    by_contra hge
    rw [List.getElem?_eq_none (by omega)] at hi
    cases hi
  exact typeRun_reaches ds i hlt hne m

theorem typed_tagline_cycle_witness :
    ([lit "A", lit "BB"][1]? = some (lit "BB") ∧ lit "BB" ≠ []) ∧
      (typeRun [lit "A", lit "BB"] (2 * (lit "BB").length + 1)
            { index := 1, charIndex := 0, isDeleting := false }
          = some (typingTicks (lit "BB") ++ deletingTicks (lit "BB") ++ [switchTick],
              { index := (1 + 1) % [lit "A", lit "BB"].length, charIndex := 0,
                isDeleting := false }) ∧
        ((∀ x ∈ [lit "A", lit "BB"], x ≠ []) → ∀ m, ∃ k ticks,
          typeRun [lit "A", lit "BB"] k { index := 1, charIndex := 0, isDeleting := false }
            = some (ticks,
                { index := (1 + m) % [lit "A", lit "BB"].length, charIndex := 0,
                  isDeleting := false })) ∧
        typedTexts [lit "A", lit "BB"] 9
          = some [lit "A", [], lit "B", lit "BB", lit "B", [], lit "A"]) :=
  ⟨⟨by decide, by decide⟩, typed_tagline_cycle [lit "A", lit "BB"] 1 (lit "BB") (by decide) (by decide)⟩

/-! ## Theorems: the `data-strings` attribute -/

/-- C9 (as stated) fails: when the attribute is absent, or empty, the text
parsed is `'[]'` and the list loaded is the empty list, not the default list
`['Software Engineer']`. -/
theorem loadDataStrings_absent_counterexample :
    loadDataStrings none = JSValue.array [] ∧
      loadDataStrings (some []) = JSValue.array [] ∧
      JSValue.array [] ≠ defaultStrings := by
  refine ⟨rfl, rfl, ?_⟩
  simp [defaultStrings]

/-- C9 (amended): the list loaded from `data-strings` is the empty list when
the attribute is absent or empty, the default list `['Software Engineer']` when
the attribute is not empty and fails to parse as JSON, and the parsed value
otherwise. -/
theorem loadDataStrings_spec (text : JSString) (h : text ≠ []) :
    loadDataStrings none = JSValue.array [] ∧
      loadDataStrings (some []) = JSValue.array [] ∧
      (jsonParse text = none → loadDataStrings (some text) = defaultStrings) ∧
      (∀ v, jsonParse text = some v → loadDataStrings (some text) = v) := by
  refine ⟨rfl, rfl, ?_, ?_⟩
  · intro hp
    cases text with
    | nil => exact absurd rfl h
    | cons c cs => simp only [loadDataStrings, hp]
  · intro v hp
    cases text with
    | nil => exact absurd rfl h
    | cons c cs => simp only [loadDataStrings, hp]

theorem loadDataStrings_spec_witness :
    (lit "[\"A\", \"BB\"]" ≠ [] ∧
        jsonParse (lit "[\"A\", \"BB\"]")
          = some (JSValue.array [JSValue.string (lit "A"), JSValue.string (lit "BB")]) ∧
        jsonParse (lit "[\"A\", ") = none) ∧
      (loadDataStrings none = JSValue.array [] ∧
        loadDataStrings (some []) = JSValue.array [] ∧
        (jsonParse (lit "[\"A\", \"BB\"]") = none →
          loadDataStrings (some (lit "[\"A\", \"BB\"]")) = defaultStrings) ∧
        (∀ v, jsonParse (lit "[\"A\", \"BB\"]") = some v →
          loadDataStrings (some (lit "[\"A\", \"BB\"]")) = v)) :=
  ⟨⟨by decide, rfl, rfl⟩, loadDataStrings_spec (lit "[\"A\", \"BB\"]") (by decide)⟩

/-! ## Theorems: contact form -/

theorem utf16_append (a b : List Char) : utf16 (a ++ b) = utf16 a ++ utf16 b := by
  induction a with
  | nil => rfl
  | cons c cs ih => simp [utf16, ih]

theorem isUnescaped_lt {c : Nat} (h : isUnescaped c = true) : c < 0x80 := by
  simp only [isUnescaped, Bool.or_eq_true, Bool.and_eq_true, decide_eq_true_eq, beq_iff_eq] at h
  omega

theorem isLeadingSurrogate_iff (c : Nat) : isLeadingSurrogate c = true ↔ 0xD800 ≤ c ∧ c ≤ 0xDBFF := by
  simp [isLeadingSurrogate]

theorem isTrailingSurrogate_iff (c : Nat) :
    isTrailingSurrogate c = true ↔ 0xDC00 ≤ c ∧ c ≤ 0xDFFF := by
  simp [isTrailingSurrogate]

theorem char_toNat_valid (c : Char) :
    c.toNat < 0xD800 ∨ (0xDFFF < c.toNat ∧ c.toNat < 0x110000) := by
  have h := c.valid
  simpa [UInt32.isValidChar, Nat.isValidChar, Char.toNat] using h

/-- On the UTF-16 form of a character, `encodeURIComponent` copies an unescaped
character and escapes the code point of any other. -/
theorem encodeURIComponent_char (c : Char) (rest : JSString) :
    encodeURIComponent (utf16EncodeCodePoint c.toNat ++ rest)
      = (encodeURIComponent rest).map fun r =>
          (if isUnescaped c.toNat then [c.toNat] else escapeCodePoint c.toNat) ++ r := by
  have hv := char_toNat_valid c
  by_cases hlt : c.toNat < 0x10000
  · simp only [utf16EncodeCodePoint, hlt, if_true, List.singleton_append]
    rw [encodeURIComponent.eq_def]
    by_cases hu : isUnescaped c.toNat = true
    · simp [hu]
    · have ht : ¬ isTrailingSurrogate c.toNat = true := by
        rw [isTrailingSurrogate_iff]; omega
      have hl : ¬ isLeadingSurrogate c.toNat = true := by
        rw [isLeadingSurrogate_iff]; omega
      simp [hu, ht, hl]
  · have hu : ¬ isUnescaped c.toNat = true := fun h => by have := isUnescaped_lt h; omega
    have hu1 : ¬ isUnescaped (0xD800 + (c.toNat - 0x10000) / 0x400) = true :=
      fun h => by have := isUnescaped_lt h; omega
    have ht1 : ¬ isTrailingSurrogate (0xD800 + (c.toNat - 0x10000) / 0x400) = true := by
      rw [isTrailingSurrogate_iff]; omega
    have hl1 : isLeadingSurrogate (0xD800 + (c.toNat - 0x10000) / 0x400) = true := by
      rw [isLeadingSurrogate_iff]; omega
    have ht2 : isTrailingSurrogate (0xDC00 + (c.toNat - 0x10000) % 0x400) = true := by
      rw [isTrailingSurrogate_iff]; omega
    have hcp : surrogatePairToCodePoint (0xD800 + (c.toNat - 0x10000) / 0x400)
        (0xDC00 + (c.toNat - 0x10000) % 0x400) = c.toNat := by
      simp only [surrogatePairToCodePoint]; omega
    simp only [utf16EncodeCodePoint, hlt, if_false, List.cons_append, List.nil_append]
    rw [encodeURIComponent.eq_def]
    simp only [hu1, ht1, hl1, ht2, if_true, if_false, hcp, hu, Bool.false_eq_true]

/-- On a string of Unicode characters `encodeURIComponent` returns, and its
result is the escape of the text. -/
theorem encodeURIComponent_utf16 (cs : List Char) :
    encodeURIComponent (utf16 cs) = some (escapeText cs) := by
  induction cs with
  | nil => rfl
  | cons c cs ih =>
    rw [utf16, encodeURIComponent_char, ih]
    rfl

theorem encodeURIComponent_isSome_aux (n : Nat) :
    ∀ s : JSString, s.length ≤ n → (encodeURIComponent s).isSome = isWellFormed s := by
  induction n with
  | zero =>
    intro s hs
    have : s = [] := List.length_eq_zero.mp (by omega)
    subst this
    rfl
  | succ n ih =>
    intro s hs
    cases s with
    | nil => rfl
    | cons c rest =>
      have hrest : (encodeURIComponent rest).isSome = isWellFormed rest :=
        ih rest (by simp at hs; omega)
      rw [encodeURIComponent.eq_def, isWellFormed.eq_def]
      by_cases hu : isUnescaped c = true
      · have hc := isUnescaped_lt hu
        have ht : ¬ isTrailingSurrogate c = true := by rw [isTrailingSurrogate_iff]; omega
        have hl : ¬ isLeadingSurrogate c = true := by rw [isLeadingSurrogate_iff]; omega
        simp [hu, ht, hl, hrest]
      · by_cases ht : isTrailingSurrogate c = true
        · simp [hu, ht]
        · by_cases hl : isLeadingSurrogate c = true
          · cases rest with
            | nil => simp [hu, ht, hl]
            | cons d rest2 =>
              have hrest2 : (encodeURIComponent rest2).isSome = isWellFormed rest2 :=
                ih rest2 (by simp at hs; omega)
              by_cases htd : isTrailingSurrogate d = true
              · simp [hu, ht, hl, htd, hrest2]
              · simp [hu, ht, hl, htd]
          · simp [hu, ht, hl, hrest]

/-- The call of `encodeURIComponent` returns exactly on the well-formed strings. -/
theorem encodeURIComponent_isSome (s : JSString) :
    (encodeURIComponent s).isSome = isWellFormed s :=
  encodeURIComponent_isSome_aux s.length s (le_refl _)

theorem isWellFormed_cons (c : Nat) (r : JSString) (hl : isLeadingSurrogate c = false)
    (ht : isTrailingSurrogate c = false) : isWellFormed (c :: r) = isWellFormed r := by
  rw [isWellFormed.eq_def]
  simp [hl, ht]

theorem isWellFormed_append_cons_aux (c : Nat) (hl : isLeadingSurrogate c = false)
    (ht : isTrailingSurrogate c = false) (b : JSString) (n : Nat) :
    ∀ a : JSString, a.length ≤ n →
      isWellFormed (a ++ c :: b) = (isWellFormed a && isWellFormed b) := by
  induction n with
  | zero =>
    intro a ha
    have : a = [] := List.length_eq_zero.mp (by omega)
    subst this
    simp [isWellFormed_cons c b hl ht, isWellFormed]
  | succ n ih =>
    intro a ha
    cases a with
    | nil => simp [isWellFormed_cons c b hl ht, isWellFormed]
    | cons x a1 =>
      have h1 : isWellFormed (a1 ++ c :: b) = (isWellFormed a1 && isWellFormed b) :=
        ih a1 (by simp at ha; omega)
      rw [List.cons_append, isWellFormed.eq_def, isWellFormed.eq_def (x :: a1)]
      by_cases hxt : isTrailingSurrogate x = true
      · simp [hxt]
      · by_cases hxl : isLeadingSurrogate x = true
        · cases a1 with
          | nil => simp [hxt, hxl, ht]
          | cons d a2 =>
            have h2 : isWellFormed (a2 ++ c :: b) = (isWellFormed a2 && isWellFormed b) :=
              ih a2 (by simp at ha; omega)
            simp [hxt, hxl, h2, Bool.and_assoc]
        · simp [hxt, hxl, h1]

/-- Around a code unit that is not a surrogate, the two sides of a string are
well-formed independently. -/
theorem isWellFormed_append_cons (c : Nat) (hl : isLeadingSurrogate c = false)
    (ht : isTrailingSurrogate c = false) (a b : JSString) :
    isWellFormed (a ++ c :: b) = (isWellFormed a && isWellFormed b) :=
  isWellFormed_append_cons_aux c hl ht b a.length a (le_refl _)

/-- The body text is well-formed exactly when both field values are. -/
theorem isWellFormed_body (e m : JSString) :
    isWellFormed (lit "From: " ++ e ++ lit "\n\n" ++ m) = (isWellFormed e && isWellFormed m) := by
  have hF : lit "From: " = [70, 114, 111, 109, 58, 32] := by decide
  have hN : lit "\n\n" = [10, 10] := by decide
  rw [hF, hN, List.append_assoc, List.append_assoc]
  simp only [List.cons_append, List.nil_append]
  rw [isWellFormed_cons 70 _ (by decide) (by decide), isWellFormed_cons 114 _ (by decide) (by decide),
    isWellFormed_cons 111 _ (by decide) (by decide), isWellFormed_cons 109 _ (by decide) (by decide),
    isWellFormed_cons 58 _ (by decide) (by decide), isWellFormed_cons 32 _ (by decide) (by decide),
    isWellFormed_append_cons 10 (by decide) (by decide),
    isWellFormed_cons 10 _ (by decide) (by decide)]

theorem exists_char_toNat (n : Nat) (h : n < 0xD800 ∨ (0xDFFF < n ∧ n < 0x110000)) :
    ∃ c : Char, c.toNat = n :=
  ⟨Char.ofNatAux n h, rfl⟩

theorem exists_utf16_aux (n : Nat) :
    ∀ s : JSString, s.length ≤ n → (∀ u ∈ s, u < 0x10000) → isWellFormed s = true →
      ∃ cs : List Char, utf16 cs = s := by
  induction n with
  | zero =>
    intro s hs _ _
    have : s = [] := List.length_eq_zero.mp (by omega)
    subst this
    exact ⟨[], rfl⟩
  | succ n ih =>
    intro s hs hu hw
    cases s with
    | nil => exact ⟨[], rfl⟩
    | cons c rest =>
      have hc : c < 0x10000 := hu c (List.mem_cons_self _ _)
      rw [isWellFormed.eq_def] at hw
      by_cases ht : isTrailingSurrogate c = true
      · simp [ht] at hw
      · by_cases hl : isLeadingSurrogate c = true
        · cases rest with
          | nil => simp [ht, hl] at hw
          | cons d rest2 =>
            simp only [ht, hl, if_true, if_false, Bool.and_eq_true, Bool.false_eq_true] at hw
            obtain ⟨cs, hcs⟩ := ih rest2 (by simp at hs; omega)
              (fun u h => hu u (List.mem_cons_of_mem _ (List.mem_cons_of_mem _ h))) hw.2
            have hl2 := (isLeadingSurrogate_iff c).1 hl
            have hd2 := (isTrailingSurrogate_iff d).1 hw.1
            obtain ⟨ch, hch⟩ := exists_char_toNat (surrogatePairToCodePoint c d) (by
              simp only [surrogatePairToCodePoint]; omega)
            refine ⟨ch :: cs, ?_⟩
            have hcp : utf16EncodeCodePoint (surrogatePairToCodePoint c d) = [c, d] := by
              have h1 : ¬ surrogatePairToCodePoint c d < 0x10000 := by
                simp only [surrogatePairToCodePoint]; omega
              have h2 : 0xD800 + (surrogatePairToCodePoint c d - 0x10000) / 0x400 = c := by
                simp only [surrogatePairToCodePoint]; omega
              have h3 : 0xDC00 + (surrogatePairToCodePoint c d - 0x10000) % 0x400 = d := by
                simp only [surrogatePairToCodePoint]; omega
              simp only [utf16EncodeCodePoint, h1, if_false, h2, h3]
            simp only [utf16, hch, hcp, hcs, List.cons_append, List.nil_append]
        · simp only [ht, hl, if_false, Bool.false_eq_true] at hw
          obtain ⟨cs, hcs⟩ := ih rest (by simp at hs; omega)
            (fun u h => hu u (List.mem_cons_of_mem _ h)) hw
          have ht2 : ¬ (0xDC00 ≤ c ∧ c ≤ 0xDFFF) := fun h => ht ((isTrailingSurrogate_iff c).2 h)
          have hl2 : ¬ (0xD800 ≤ c ∧ c ≤ 0xDBFF) := fun h => hl ((isLeadingSurrogate_iff c).2 h)
          obtain ⟨ch, hch⟩ := exists_char_toNat c (by omega)
          refine ⟨ch :: cs, ?_⟩
          simp only [utf16, hch, utf16EncodeCodePoint, hc, if_true, hcs, List.singleton_append]

/-- Every well-formed string of 16-bit code units is the UTF-16 form of a text
of Unicode characters. -/
theorem exists_utf16_of_isWellFormed (s : JSString) (hu : ∀ u ∈ s, u < 0x10000)
    (hw : isWellFormed s = true) : ∃ cs : List Char, utf16 cs = s :=
  exists_utf16_aux s.length s (le_refl _) hu hw

/-- Escapes of characters of one, two, three and four UTF-8 bytes. -/
theorem escapeText_examples :
    escapeText "a-Z_9.!~*'()".toList = lit "a-Z_9.!~*'()" ∧
      escapeText " /?#&=+%".toList = lit "%20%2F%3F%23%26%3D%2B%25" ∧
      escapeText "é€😀".toList = lit "%C3%A9%E2%82%AC%F0%9F%98%80" ∧
      encodeURIComponent (lit "😀") = some (lit "%F0%9F%98%80") := by
  decide

theorem body_utf16 (email message : List Char) :
    lit "From: " ++ utf16 email ++ lit "\n\n" ++ utf16 message
      = utf16 ("From: ".toList ++ email ++ "\n\n".toList ++ message) := by
  simp only [lit, utf16_append]

/-- C1 (as stated) fails: with email `a` and a message that is the single
code unit U+D800 (a surrogate without its pair), both values are non-blank
after trimming, `encodeURIComponent` throws a `URIError`, and the listener
neither navigates nor resets the form. -/
theorem submitHandler_lone_surrogate_counterexample :
    trim (lit "a") ≠ [] ∧ trim [0xD800] ≠ [] ∧
      submitHandler
          { email := some { value := lit "a", defaultValue := [], customValidity := [] },
            message := some { value := [0xD800], defaultValue := [], customValidity := [] } }
        = ({ email := some { value := lit "a", defaultValue := [], customValidity := [] },
             message := some { value := [0xD800], defaultValue := [], customValidity := [] } },
           [Effect.preventDefault, Effect.uriError]) := by
  decide

set_option maxRecDepth 8192 in
/-- C1 (amended): for every email text and message text made of Unicode
characters (strings without unpaired surrogates) that are both non-blank after
trimming, the submit listener prevents the default action, clears the custom
validity message of the email field, navigates to exactly `mailto:...&body=`
followed by the escape of `'From: ' + email + two line feeds + message` (every
UTF-8 byte of each character outside `A-Z a-z 0-9 - _ . ! ~ * ' ( )` written as
`%` and two uppercase hexadecimal digits), and afterwards resets the form; for
email `x@y.com` and message `hi` the target is
`mailto:balajimore9193@gmail.com?subject=Portfolio%20Contact&body=From%3A%20x%40y.com%0A%0Ahi`. -/
theorem submitHandler_mailto (email message : List Char) (de dm ce cm : JSString)
    (hte : trim (utf16 email) ≠ []) (htm : trim (utf16 message) ≠ []) :
    submitHandler
        { email := some { value := utf16 email, defaultValue := de, customValidity := ce },
          message := some { value := utf16 message, defaultValue := dm, customValidity := cm } }
      = ({ email := some { value := de, defaultValue := de, customValidity := [] },
           message := some { value := dm, defaultValue := dm, customValidity := cm } },
         [Effect.preventDefault,
          Effect.navigate (mailtoPrefix ++
            escapeText ("From: ".toList ++ email ++ "\n\n".toList ++ message)),
          Effect.reset]) ∧
      (submitHandler
          { email := some { value := lit "x@y.com", defaultValue := [], customValidity := [] },
            message := some { value := lit "hi", defaultValue := [], customValidity := [] } }).2
        = [Effect.preventDefault,
           Effect.navigate (lit
             "mailto:balajimore9193@gmail.com?subject=Portfolio%20Contact&body=From%3A%20x%40y.com%0A%0Ahi"),
           Effect.reset] := by
  refine ⟨?_, by decide⟩
  simp only [submitHandler, hte, htm, or_self, if_false, body_utf16, encodeURIComponent_utf16,
    Field.reset, Field.setCustomValidity]

theorem submitHandler_mailto_witness :
    (trim (utf16 "x@y.com".toList) ≠ [] ∧ trim (utf16 "hé 😀".toList) ≠ []) ∧
      (submitHandler
          { email := some { value := utf16 "x@y.com".toList, defaultValue := [],
                            customValidity := lit "Please fill in email and message." },
            message := some { value := utf16 "hé 😀".toList, defaultValue := [],
                              customValidity := [] } }
        = ({ email := some { value := [], defaultValue := [], customValidity := [] },
             message := some { value := [], defaultValue := [], customValidity := [] } },
           [Effect.preventDefault,
            Effect.navigate (mailtoPrefix ++
              escapeText ("From: ".toList ++ "x@y.com".toList ++ "\n\n".toList ++ "hé 😀".toList)),
            Effect.reset]) ∧
        (submitHandler
            { email := some { value := lit "x@y.com", defaultValue := [], customValidity := [] },
              message := some { value := lit "hi", defaultValue := [], customValidity := [] } }).2
          = [Effect.preventDefault,
             Effect.navigate (lit
               "mailto:balajimore9193@gmail.com?subject=Portfolio%20Contact&body=From%3A%20x%40y.com%0A%0Ahi"),
             Effect.reset]) :=
  ⟨⟨by decide, by decide⟩,
    submitHandler_mailto "x@y.com".toList "hé 😀".toList [] [] _ [] (by decide) (by decide)⟩

/-- C2 (as stated) fails: with an email value that is the single code unit
U+DC00 and the message `hi`, both fields exist and are non-blank after
trimming, and the listener does not navigate. -/
theorem submitHandler_navigates_iff_counterexample :
    (∃ e m,
        (some { value := [0xDC00], defaultValue := [], customValidity := [] } : Option Field)
            = some e ∧
          (some { value := lit "hi", defaultValue := [], customValidity := [] } : Option Field)
            = some m ∧
          trim e.value ≠ [] ∧ trim m.value ≠ []) ∧
      ¬ ∃ href, Effect.navigate href ∈ (submitHandler
          { email := some { value := [0xDC00], defaultValue := [], customValidity := [] },
            message := some { value := lit "hi", defaultValue := [], customValidity := [] } }).2 := by
  refine ⟨⟨_, _, rfl, rfl, by decide, by decide⟩, ?_⟩
  have h : (submitHandler
      { email := some { value := [0xDC00], defaultValue := [], customValidity := [] },
        message := some { value := lit "hi", defaultValue := [], customValidity := [] } }).2
      = [Effect.preventDefault, Effect.uriError] := by decide
  rw [h]
  simp

/-- C2 (amended): for every state of the contact form, the submit listener
navigates if and only if the email and message fields both exist, both have
non-empty values after trimming, and neither value contains an unpaired
surrogate; every target it navigates to starts with the `mailto:` prefix; when
both fields exist and either value trims to empty, the submission is aborted:
the only effects are `preventDefault` and `reportValidity` (no navigation, no
reset), the field values are unchanged, and the custom validity message of the
email field is `Please fill in email and message.`. -/
theorem submitHandler_navigates_iff (form : ContactForm) :
    ((∃ href, Effect.navigate href ∈ (submitHandler form).2) ↔
        ∃ e m, form.email = some e ∧ form.message = some m ∧
          trim e.value ≠ [] ∧ trim m.value ≠ [] ∧
          isWellFormed e.value = true ∧ isWellFormed m.value = true) ∧
      (∀ href, Effect.navigate href ∈ (submitHandler form).2 → mailtoPrefix <+: href) ∧
      (∀ e m, form.email = some e → form.message = some m →
        trim e.value = [] ∨ trim m.value = [] →
        submitHandler form
          = ({ email := some { e with customValidity := lit "Please fill in email and message." },
               message := some m },
             [Effect.preventDefault, Effect.reportValidity])) := by
  obtain ⟨fe, fm⟩ := form
  cases fe with
  | none => simp [submitHandler]
  | some e =>
    cases fm with
    | none => simp [submitHandler]
    | some m =>
      by_cases hblank : trim e.value = [] ∨ trim m.value = []
      · have hrun : submitHandler { email := some e, message := some m }
            = ({ email := some { e with customValidity := lit "Please fill in email and message." },
                 message := some m },
               [Effect.preventDefault, Effect.reportValidity]) := by
          simp only [submitHandler, hblank, if_true, Field.setCustomValidity]
        rw [hrun]
        refine ⟨?_, ?_, ?_⟩
        · constructor
          · rintro ⟨href, h⟩
            simp at h
          · rintro ⟨e1, m1, he, hm, h1, h2, _⟩
            simp only [Option.some.injEq] at he hm
            subst he hm
            rcases hblank with h | h
            · exact absurd h h1
            · exact absurd h h2
        · intro href h
          simp at h
        · intro e1 m1 he hm _
          simp only [Option.some.injEq] at he hm
          subst he hm
          rfl
      · have hne : trim e.value ≠ [] ∧ trim m.value ≠ [] := by
          constructor
          · exact fun h => hblank (Or.inl h)
          · exact fun h => hblank (Or.inr h)
        have hwf := encodeURIComponent_isSome (lit "From: " ++ e.value ++ lit "\n\n" ++ m.value)
        rw [isWellFormed_body] at hwf
        cases henc : encodeURIComponent (lit "From: " ++ e.value ++ lit "\n\n" ++ m.value) with
        | none =>
          rw [henc] at hwf
          have hrun : (submitHandler { email := some e, message := some m }).2
              = [Effect.preventDefault, Effect.uriError] := by
            simp only [submitHandler, hblank, if_false, henc]
          rw [hrun]
          refine ⟨?_, ?_, ?_⟩
          · constructor
            · rintro ⟨href, h⟩
              simp at h
            · rintro ⟨e1, m1, he, hm, _, _, w1, w2⟩
              simp only [Option.some.injEq] at he hm
              subst he hm
              simp [w1, w2] at hwf
          · intro href h
            simp at h
          · intro e1 m1 he hm hb
            simp only [Option.some.injEq] at he hm
            subst he hm
            exact absurd hb hblank
        | some body =>
          rw [henc] at hwf
          have hrun : (submitHandler { email := some e, message := some m }).2
              = [Effect.preventDefault, Effect.navigate (mailtoPrefix ++ body), Effect.reset] := by
            simp only [submitHandler, hblank, if_false, henc]
          rw [hrun]
          refine ⟨?_, ?_, ?_⟩
          · constructor
            · intro _
              have hw : isWellFormed e.value = true ∧ isWellFormed m.value = true := by
                simpa using hwf.symm
              exact ⟨e, m, rfl, rfl, hne.1, hne.2, hw.1, hw.2⟩
            · intro _
              exact ⟨mailtoPrefix ++ body, by simp⟩
          · intro href h
            simp at h
            subst h
            exact List.prefix_append _ _
          · intro e1 m1 he hm hb
            simp only [Option.some.injEq] at he hm
            subst he hm
            exact absurd hb hblank

end Portfolio
